import Mathlib

/-!
Shallow embedding of `src/src/state.js` (a hierarchical state machine runtime).

The JavaScript heap of model objects (Region / State / PseudoState / FinalState,
plus the Completion and Transition edges pushed onto their sources) is modelled
as an arena: a list of elements addressed by natural-number ids, with `parent`
links.  Mutable per-object fields (`IsActive`, `Region.Current`) live in a
separate `Dyn` record threaded through the interpreter.  Every observable effect
(the `console.log` Enter/Leave lines, user entry/exit/effect actions, and the
assignments to `IsActive` / `Current`) is recorded as an event in a trace, so
ordering claims become statements about traces.  JavaScript exceptions
(`throw new Error`, `TypeError` from calling a non-function or touching a
property of `undefined`) are modelled with `Except`; recursion through the
object graph is bounded by explicit fuel, with `Err.outOfFuel` marking
exhaustion.
-/

set_option linter.unusedVariables false

namespace StateJs

/-- Kinds of pseudo state, mirroring `PseudoStateKind` (state.js:46-53). -/
inductive PKind
  | deepHistory
  | entryPoint
  | exitPoint
  | initial
  | shallowHistory
deriving DecidableEq, Repr

/-- The `IsInitial` flag of each `PseudoStateKind` member (state.js:48-52). -/
def PKind.IsInitial : PKind → Bool
  | .deepHistory => true
  | .entryPoint => true
  | .exitPoint => false
  | .initial => true
  | .shallowHistory => true

/-- The `IsHistory` flag of each `PseudoStateKind` member (state.js:48-52). -/
def PKind.IsHistory : PKind → Bool
  | .deepHistory => true
  | .shallowHistory => true
  | _ => false

/-- Messages dispatched into the machine; opaque in the source, here `Nat`. -/
abbrev Msg := Nat

/-- A `Completion` edge (state.js:369-376): guard takes no arguments (a plain
`Bool` here); user effect actions are counted, the interpreter records an event
per action. -/
structure Completion where
  source : Nat
  target : Nat
  guard : Bool
  effectCount : Nat

/-- A `Transition` edge (state.js:392-401): the guard is a predicate over the
dispatched message. -/
structure Transition where
  source : Nat
  target : Nat
  guard : Msg → Bool
  effectCount : Nat

/-- Per-`Region` static data: the `Initial` field registered by the
`PseudoState` constructor (state.js:147). -/
structure RegionData where
  initial : Option Nat

/-- Per-`State` static data: counts of `Entry`/`Exit` user actions, child
region ids in declaration order, and the `Completions` / `Transitions` lists
pushed by the edge constructors. -/
structure StateData where
  entryCount : Nat
  exitCount : Nat
  regions : List Nat
  completions : List Completion
  transitions : List Transition

/-- `this.IsSimple()` (state.js:210-213). -/
def StateData.IsSimple (st : StateData) : Bool :=
  st.regions.length == 0

/-- The four concrete element shapes of the source. -/
inductive ElemData
  | region (r : RegionData)
  | state (s : StateData)
  | pseudoState (kind : PKind) (completions : List Completion)
  | finalState

/-- An arena element: `Parent` link plus its shape. -/
structure Elem where
  parent : Option Nat
  data : ElemData

/-- A machine: the arena of elements.  Ids index into `elems`. -/
structure Machine where
  elems : List Elem

def Machine.elem? (mc : Machine) (id : Nat) : Option Elem :=
  mc.elems[id]?

def Machine.parent? (mc : Machine) (id : Nat) : Option Nat :=
  (mc.elem? id).bind (fun e => e.parent)

def Machine.stateData? (mc : Machine) (id : Nat) : Option StateData :=
  match mc.elem? id with
  | some e => match e.data with
    | .state s => some s
    | _ => none
  | none => none

def Machine.regionData? (mc : Machine) (id : Nat) : Option RegionData :=
  match mc.elem? id with
  | some e => match e.data with
    | .region r => some r
    | _ => none
  | none => none

def Machine.pseudoKind? (mc : Machine) (id : Nat) : Option PKind :=
  match mc.elem? id with
  | some e => match e.data with
    | .pseudoState k _ => some k
    | _ => none
  | none => none

def Machine.pseudoCompletions? (mc : Machine) (id : Nat) : Option (List Completion) :=
  match mc.elem? id with
  | some e => match e.data with
    | .pseudoState _ cs => some cs
    | _ => none
  | none => none

/-- `x instanceof PseudoState`. -/
def Machine.isPseudo (mc : Machine) (id : Nat) : Bool :=
  (mc.pseudoKind? id).isSome

/-- `x instanceof FinalState`. -/
def Machine.isFinal (mc : Machine) (id : Nat) : Bool :=
  match mc.elem? id with
  | some e => match e.data with
    | .finalState => true
    | _ => false
  | none => false

/-- Errors: `Err.singleError` / `Err.multipleError` are the two `throw new
Error` sites of `single` / `singleOrDefault`; `Err.modelError` is the duplicate
initial pseudo state throw; `Err.typeError` models the JavaScript `TypeError`
raised by calling a non-function value or dereferencing `undefined`;
`Err.outOfFuel` and `Err.nonTermination` are artefacts of bounding recursion
(the latter marks the `while` loop of `Path` not terminating). -/
inductive Err
  | typeError
  | singleError
  | multipleError
  | modelError
  | outOfFuel
  | nonTermination
deriving DecidableEq, Repr

/-- Observable events, in the order the source produces them. -/
inductive Ev
  | enter (id : Nat)
  | leave (id : Nat)
  | entryAct (id i : Nat)
  | exitAct (id i : Nat)
  | effect (source target i : Nat) (msg : Option Nat)
  | setCurrent (rid vid : Nat)
  | setActive (id : Nat) (b : Bool)
deriving DecidableEq, Repr

/-- The mutable per-object fields: the set of elements whose `IsActive` is
`true`, and each region's `Current` pointer. -/
structure Dyn where
  active : List Nat
  current : List (Nat × Nat)
deriving DecidableEq, Repr

def Dyn.isActive (d : Dyn) (id : Nat) : Bool :=
  d.active.contains id

def Dyn.getCurrent (d : Dyn) (rid : Nat) : Option Nat :=
  (d.current.find? (fun p => p.1 == rid)).map (fun p => p.2)

def Dyn.setActive (d : Dyn) (id : Nat) (b : Bool) : Dyn :=
  if b then
    { d with active := if d.active.contains id then d.active else d.active ++ [id] }
  else
    { d with active := d.active.filter (fun x => x ≠ id) }

def Dyn.setCurrent (d : Dyn) (rid vid : Nat) : Dyn :=
  { d with current := (rid, vid) :: d.current.filter (fun p => p.1 ≠ rid) }

/-- `Array.prototype.single` (state.js:17-27): the only element satisfying the
optional predicate, else `Error("Cannot return zero or more than one
elements")`. -/
def single {α : Type} (xs : List α) (p : Option (α → Bool)) : Except Err α :=
  match (match p with | some q => xs.filter q | none => xs) with
  | [x] => .ok x
  | _ => .error .singleError

/-- `Array.prototype.singleOrDefault` (state.js:30-44): at most one element may
satisfy the predicate; zero yields `undefined` (here `none`). -/
def singleOrDefault {α : Type} (xs : List α) (p : Option (α → Bool)) :
    Except Err (Option α) :=
  match (match p with | some q => xs.filter q | none => xs) with
  | [x] => .ok (some x)
  | [] => .ok none
  | _ => .error .multipleError

/-- `PseudoStateKind.*.GetCompletion` (state.js:48-52): `ExitPoint` filters by
guard, every other kind takes the single completion unfiltered. -/
def PKind.GetCompletion (k : PKind) (cs : List Completion) : Except Err Completion :=
  match k with
  | .exitPoint => single cs (some (fun c => c.guard))
  | _ => single cs none

/-- `Ancestors(node)` (state.js:417-427): root-first list of the parent chain,
node inclusive; fuel bounds the chase. -/
def Ancestors (mc : Machine) : Nat → Nat → Option (List Nat)
  | 0, _ => none
  | fuel + 1, id =>
    match mc.parent? id with
    | some p => (Ancestors mc fuel p).map (fun l => l ++ [id])
    | none => some [id]

/-- The `while( sourceAncestors[i] === targetAncestors[i] ) i++` loop of `Path`
(state.js:436-439).  In JavaScript `undefined === undefined`, so the loop never
terminates when both lists are exhausted together; that case is `none`. -/
def firstDiffIdx : List Nat → List Nat → Option Nat
  | [], [] => none
  | a :: as, b :: bs =>
    if a = b then (firstDiffIdx as bs).map (fun i => i + 1) else some 0
  | _, _ => some 0

/-- A compiled `Path` (state.js:429-456): `exits` holds the elements whose
`OnExit` closures were pushed (a `none` entry is a closure over the
`undefined` value `sourceAncestors[i]`, which raises `TypeError` when run);
`enters` the elements whose `BeginEnter` closures were pushed; `target` the
element whose `EndEnter` the `Complete` closure invokes. -/
structure PathS where
  exits : List (Option Nat)
  enters : List Nat
  target : Nat
deriving DecidableEq, Repr

/-- `Path( source, target )` (state.js:429-456). -/
def mkPath (mc : Machine) (fuel : Nat) (source target : Nat) : Except Err PathS :=
  match Ancestors mc fuel source, Ancestors mc fuel target with
  | some sA, some tA =>
    match firstDiffIdx sA tA with
    | none => .error .nonTermination
    | some i =>
      .ok { exits :=
              (if mc.isPseudo source ∧ sA[i]? ≠ some source then [some source] else [])
                ++ [sA[i]?],
            enters := tA.drop i,
            target := target }
  | _, _ => .error .outOfFuel

/-- Events of running `this.Entry.forEach( function( action ) { action(); } )`. -/
def entryEvents (sid n : Nat) : List Ev :=
  (List.range n).map (fun i => .entryAct sid i)

/-- Events of running `this.Exit.forEach( function( action ) { action(); } )`. -/
def exitEvents (sid n : Nat) : List Ev :=
  (List.range n).map (fun i => .exitAct sid i)

/-- Events of running `this.Effect.forEach(...)`; transition effects receive
the message, completion effects none. -/
def effectEvents (src tgt n : Nat) (msg : Option Nat) : List Ev :=
  (List.range n).map (fun i => .effect src tgt i msg)

/-- Interpreter results: new dynamic state plus the trace of events. -/
abbrev Res := Except Err (Dyn × List Ev)

/-- Sequential execution of one step per list element, concatenating traces.
This is the shape of every `forEach` over child collections in the source. -/
def runSeq {α : Type} (f : α → Dyn → Res) : List α → Dyn → Res
  | [], d => .ok (d, [])
  | x :: xs, d => do
    let (d1, t1) ← f x d
    let (d2, t2) ← runSeq f xs d1
    .ok (d2, t1 ++ t2)

/-- The region loop of `State.prototype.Process` (state.js:244-253): visit each
region in declaration order, skipping inactive ones; `processed` becomes true
only when a region's `Process` returned exactly `true`. -/
def processLoop (f : Nat → Dyn → Except Err (Dyn × List Ev × Option Bool))
    (isAct : Nat → Dyn → Bool) :
    List Nat → Dyn → Bool → Except Err (Dyn × List Ev × Bool)
  | [], d, pr => .ok (d, [], pr)
  | r :: rs, d, pr =>
    if isAct r d then do
      let (d1, t1, res) ← f r d
      let pr1 := if res = some true then true else pr
      let (d2, t2, pr2) ← processLoop f isAct rs d1 pr1
      .ok (d2, t1 ++ t2, pr2)
    else
      processLoop f isAct rs d pr

/-- `Region.prototype.IsComplete` (state.js:72-75):
`this.Current instanceof FinalState`. -/
def Region.IsComplete (mc : Machine) (d : Dyn) (rid : Nat) : Bool :=
  match d.getCurrent rid with
  | some c => mc.isFinal c
  | none => false

/-- Line 86 of `Region.prototype.Initialise`:
`var vertex = (( deepHistory || this.Initial.Kind.IsHistory ) && this.Current ) ? this.Current : this.Initial;`
`Err.typeError` mirrors property access on an `undefined` `this.Initial` (or,
in the last case, the immediately following `vertex.Initialise` call on
`undefined`).  JavaScript short-circuits `||`, so a true `deepHistory` never
touches `this.Initial.Kind`. -/
def regionInitialVertex (mc : Machine) (rid : Nat) (dh : Bool) (d : Dyn) :
    Except Err Nat := do
  let r ← match mc.regionData? rid with
    | some r => Except.ok r
    | none => Except.error Err.typeError
  let cond ←
    if dh then pure true
    else match r.initial with
      | none => Except.error Err.typeError
      | some iid => match mc.pseudoKind? iid with
        | some k => pure k.IsHistory
        | none => Except.error Err.typeError
  match (if cond then d.getCurrent rid else none) with
  | some c => pure c
  | none => match r.initial with
    | some iid => pure iid
    | none => Except.error Err.typeError

/-- `PseudoState.prototype.OnExit` (state.js:161-166): log Leave, clear
`IsActive`. -/
def PseudoState.OnExit (d : Dyn) (pid : Nat) : Dyn × List Ev :=
  (d.setActive pid false, [.leave pid, .setActive pid false])

/-- `FinalState.prototype.BeginEnter` (state.js:342-357).  A `FinalState` has
no `OnExit` method, so re-entering an active one raises `TypeError`. -/
def FinalState.BeginEnter (mc : Machine) (fid : Nat) (d : Dyn) : Res :=
  if d.isActive fid then .error .typeError
  else
    let d1 := d.setActive fid true
    match mc.parent? fid with
    | some p =>
      .ok (d1.setCurrent p fid, [.enter fid, .setActive fid true, .setCurrent p fid])
    | none => .ok (d1, [.enter fid, .setActive fid true])

mutual

/-- `Region.prototype.Initialise` (state.js:77-89): `BeginEnter`, pick the
vertex per line 86, then `vertex.Initialise( deepHistory )`.  (Lines 79-82
coerce an `undefined` flag to `false`; the flag is a `Bool` here.) -/
def Region.Initialise (mc : Machine) (fuel : Nat) (rid : Nat) (dh : Bool) (d : Dyn) :
    Res :=
  match fuel with
  | 0 => .error .outOfFuel
  | fuel + 1 => do
    let (d1, t1) ← Region.BeginEnter mc fuel rid d
    let v ← regionInitialVertex mc rid dh d1
    let (d2, t2) ← Initialise.dispatch mc fuel v dh d1
    .ok (d2, t1 ++ t2)
termination_by structural fuel


/-- Dispatch of `vertex.Initialise( deepHistory )`.  `State`, `PseudoState`
and `FinalState` `Initialise` methods take no parameter — the flag is
discarded and `EndEnter` is invoked with `false` (state.js:225-229, 155-159,
332-336); only `Region.Initialise` would consume it. -/
def Initialise.dispatch (mc : Machine) (fuel : Nat) (vid : Nat) (dh : Bool) (d : Dyn) :
    Res :=
  match fuel with
  | 0 => .error .outOfFuel
  | fuel + 1 =>
    match mc.elem? vid with
    | none => .error .typeError
    | some e =>
      match e.data with
      | .state _ => do
        let (d1, t1) ← State.BeginEnter mc fuel vid d
        let (d2, t2) ← State.EndEnter mc fuel vid false d1
        .ok (d2, t1 ++ t2)
      | .pseudoState _ _ => do
        -- PseudoState.BeginEnter only logs (state.js:168-171)
        let (d2, t2) ← PseudoState.EndEnter mc fuel vid false d
        .ok (d2, Ev.enter vid :: t2)
      | .finalState => FinalState.BeginEnter mc vid d   -- FinalState.EndEnter is empty
      | .region _ => Region.Initialise mc fuel vid dh d
termination_by structural fuel


/-- `Region.prototype.Process` (state.js:91-94): forwards to
`this.Current.Process( message )` and — having no `return` statement —
evaluates to `undefined` (the `none` in the result triple). -/
def Region.Process (mc : Machine) (fuel : Nat) (rid : Nat) (msg : Msg) (d : Dyn) :
    Except Err (Dyn × List Ev × Option Bool) :=
  match fuel with
  | 0 => .error .outOfFuel
  | fuel + 1 =>
    match d.getCurrent rid with
    | none => .error .typeError
    | some c => do
      let (d1, t1, _r) ← Process.dispatch mc fuel c msg d
      .ok (d1, t1, (none : Option Bool))
termination_by structural fuel


/-- Dispatch of `current.Process( message )`: a `State` returns its boolean, a
`FinalState`'s `Process` is an empty body returning `undefined`
(state.js:338-340), a `PseudoState` has no `Process` method (`TypeError`). -/
def Process.dispatch (mc : Machine) (fuel : Nat) (vid : Nat) (msg : Msg) (d : Dyn) :
    Except Err (Dyn × List Ev × Option Bool) :=
  match fuel with
  | 0 => .error .outOfFuel
  | fuel + 1 =>
    match mc.elem? vid with
    | none => .error .typeError
    | some e =>
      match e.data with
      | .state _ => do
        let (d1, t1, b) ← State.Process mc fuel vid msg d
        .ok (d1, t1, some b)
      | .finalState => .ok (d, [], none)
      | .region _ => Region.Process mc fuel vid msg d
      | .pseudoState _ _ => .error .typeError
termination_by structural fuel


/-- `State.prototype.Process` (state.js:231-258): select the single enabled
transition via `singleOrDefault`; traverse it, else descend into active child
regions.  The result boolean is `processed`. -/
def State.Process (mc : Machine) (fuel : Nat) (sid : Nat) (msg : Msg) (d : Dyn) :
    Except Err (Dyn × List Ev × Bool) :=
  match fuel with
  | 0 => .error .outOfFuel
  | fuel + 1 =>
    match mc.stateData? sid with
    | none => .error .typeError
    | some st => do
      let tr? ← singleOrDefault st.transitions (some (fun t => t.guard msg))
      match tr? with
      | some t => do
        let (d1, t1) ← Transition.Traverse mc fuel t msg d
        .ok (d1, t1, true)
      | none =>
        if st.IsSimple then .ok (d, [], false)
        else
          processLoop (fun r dd => Region.Process mc fuel r msg dd)
            (fun r dd => dd.isActive r) st.regions d false
termination_by structural fuel


/-- `Region.prototype.OnExit` (state.js:96-106): exit the current state when
it is active, log Leave, clear `IsActive`. -/
def Region.OnExit (mc : Machine) (fuel : Nat) (rid : Nat) (d : Dyn) : Res :=
  match fuel with
  | 0 => .error .outOfFuel
  | fuel + 1 => do
    let (d1, t1) ←
      match d.getCurrent rid with
      | some c =>
        if d.isActive c then OnExit.dispatch mc fuel c d else .ok (d, [])
      | none => .ok (d, [])
    .ok (d1.setActive rid false, t1 ++ [.leave rid, .setActive rid false])
termination_by structural fuel


/-- Dispatch of `x.OnExit()`.  `FinalState` has no `OnExit` method, so the
call raises `TypeError`. -/
def OnExit.dispatch (mc : Machine) (fuel : Nat) (vid : Nat) (d : Dyn) : Res :=
  match fuel with
  | 0 => .error .outOfFuel
  | fuel + 1 =>
    match mc.elem? vid with
    | none => .error .typeError
    | some e =>
      match e.data with
      | .state _ => State.OnExit mc fuel vid d
      | .region _ => Region.OnExit mc fuel vid d
      | .pseudoState _ _ => .ok (PseudoState.OnExit d vid)
      | .finalState => .error .typeError
termination_by structural fuel


/-- `State.prototype.OnExit` (state.js:260-269): exit active child regions
with `forEach` — declaration order — then run `Exit` actions, log Leave, clear
`IsActive`. -/
def State.OnExit (mc : Machine) (fuel : Nat) (sid : Nat) (d : Dyn) : Res :=
  match fuel with
  | 0 => .error .outOfFuel
  | fuel + 1 =>
    match mc.stateData? sid with
    | none => .error .typeError
    | some st => do
      let (d1, t1) ←
        runSeq (fun r dd => if dd.isActive r then Region.OnExit mc fuel r dd else .ok (dd, []))
          st.regions d
      .ok (d1.setActive sid false,
           t1 ++ exitEvents sid st.exitCount ++ [.leave sid, .setActive sid false])
termination_by structural fuel


/-- `Region.prototype.BeginEnter` (state.js:108-118): self-exit when already
active, log Enter, set `IsActive`. -/
def Region.BeginEnter (mc : Machine) (fuel : Nat) (rid : Nat) (d : Dyn) : Res :=
  match fuel with
  | 0 => .error .outOfFuel
  | fuel + 1 => do
    let (d1, t1) ← if d.isActive rid then Region.OnExit mc fuel rid d else .ok (d, [])
    .ok (d1.setActive rid true, t1 ++ [.enter rid, .setActive rid true])


/-- `State.prototype.BeginEnter` (state.js:271-288): self-exit when already
active; log Enter; set `IsActive`; record `this` as the parent region's
`Current`; run `Entry` actions. -/
def State.BeginEnter (mc : Machine) (fuel : Nat) (sid : Nat) (d : Dyn) : Res :=
  match fuel with
  | 0 => .error .outOfFuel
  | fuel + 1 =>
    match mc.stateData? sid with
    | none => .error .typeError
    | some st => do
      let (d1, t1) ← if d.isActive sid then State.OnExit mc fuel sid d else .ok (d, [])
      let d2 := d1.setActive sid true
      let (d3, t2) :=
        match mc.parent? sid with
        | some p => (d2.setCurrent p sid, [Ev.setCurrent p sid])
        | none => (d2, ([] : List Ev))
      .ok (d3, t1 ++ [.enter sid, .setActive sid true] ++ t2 ++ entryEvents sid st.entryCount)


/-- Dispatch of `x.BeginEnter()`; a `PseudoState`'s only logs Enter. -/
def BeginEnter.dispatch (mc : Machine) (fuel : Nat) (vid : Nat) (d : Dyn) : Res :=
  match fuel with
  | 0 => .error .outOfFuel
  | fuel + 1 =>
    match mc.elem? vid with
    | none => .error .typeError
    | some e =>
      match e.data with
      | .state _ => State.BeginEnter mc fuel vid d
      | .region _ => Region.BeginEnter mc fuel vid d
      | .finalState => FinalState.BeginEnter mc vid d
      | .pseudoState _ _ => .ok (d, [.enter vid])


/-- `State.prototype.EndEnter` (state.js:290-306): initialise child regions in
declaration order; then, when completions exist and the state is complete,
select the one whose guard holds via `singleOrDefault` — and the source then
executes `completion( deepHistory )` (state.js:302), calling the `Completion`
object as a function, which raises `TypeError` (it never invokes
`Completion.prototype.Traverse`). -/
def State.EndEnter (mc : Machine) (fuel : Nat) (sid : Nat) (dh : Bool) (d : Dyn) :
    Res :=
  match fuel with
  | 0 => .error .outOfFuel
  | fuel + 1 =>
    match mc.stateData? sid with
    | none => .error .typeError
    | some st => do
      let (d1, t1) ← runSeq (fun r dd => Region.Initialise mc fuel r dh dd) st.regions d
      if st.completions.length > 0 then
        if st.IsSimple || st.regions.all (fun r => Region.IsComplete mc d1 r) then do
          let c? ← singleOrDefault st.completions (some (fun c => c.guard))
          match c? with
          | some _ => .error .typeError
          | none => .ok (d1, t1)
        else .ok (d1, t1)
      else .ok (d1, t1)
termination_by structural fuel


/-- `PseudoState.prototype.EndEnter` (state.js:173-176):
`this.Kind.GetCompletion( this.Completions ).Traverse( deepHistory )`. -/
def PseudoState.EndEnter (mc : Machine) (fuel : Nat) (pid : Nat) (dh : Bool) (d : Dyn) :
    Res :=
  match fuel with
  | 0 => .error .outOfFuel
  | fuel + 1 =>
    match mc.pseudoKind? pid, mc.pseudoCompletions? pid with
    | some k, some cs => do
      let c ← k.GetCompletion cs
      Completion.Traverse mc fuel c dh d
    | _, _ => .error .typeError
termination_by structural fuel


/-- `Completion.prototype.Traverse` (state.js:378-390): run the path's exit
closures, the effect actions (no message), the entry closures, then
`Path.Complete( deepHistory )` — whose body ignores its argument and calls
`target.EndEnter()` with `undefined`, coerced to `false` at every use
(state.js:453).  The JavaScript `Path` is computed once at construction; the
value is identical to `mkPath` here. -/
def Completion.Traverse (mc : Machine) (fuel : Nat) (c : Completion) (dh : Bool)
    (d : Dyn) : Res :=
  match fuel with
  | 0 => .error .outOfFuel
  | fuel + 1 => do
    let p ← mkPath mc fuel c.source c.target
    let (d1, t1) ←
      runSeq (fun o dd =>
          match o with
          | some x => OnExit.dispatch mc fuel x dd
          | none => .error .typeError)
        p.exits d
    let t2 := effectEvents c.source c.target c.effectCount none
    let (d2, t3) ← runSeq (fun x dd => BeginEnter.dispatch mc fuel x dd) p.enters d1
    let (d3, t4) ← EndEnter.dispatch mc fuel p.target false d2
    .ok (d3, t1 ++ t2 ++ t3 ++ t4)
termination_by structural fuel


/-- `Transition.prototype.Traverse` (state.js:403-415): as
`Completion.Traverse` but each effect action receives the message, and
`Path.Complete( false )` again reaches `target.EndEnter()` with `undefined`. -/
def Transition.Traverse (mc : Machine) (fuel : Nat) (t : Transition) (msg : Msg)
    (d : Dyn) : Res :=
  match fuel with
  | 0 => .error .outOfFuel
  | fuel + 1 => do
    let p ← mkPath mc fuel t.source t.target
    let (d1, t1) ←
      runSeq (fun o dd =>
          match o with
          | some x => OnExit.dispatch mc fuel x dd
          | none => .error .typeError)
        p.exits d
    let t2 := effectEvents t.source t.target t.effectCount (some msg)
    let (d2, t3) ← runSeq (fun x dd => BeginEnter.dispatch mc fuel x dd) p.enters d1
    let (d3, t4) ← EndEnter.dispatch mc fuel p.target false d2
    .ok (d3, t1 ++ t2 ++ t3 ++ t4)


/-- Dispatch of `target.EndEnter()`; `FinalState.EndEnter` is an empty body
(state.js:359-361), a `Region` has no `EndEnter` method. -/
def EndEnter.dispatch (mc : Machine) (fuel : Nat) (vid : Nat) (dh : Bool) (d : Dyn) :
    Res :=
  match fuel with
  | 0 => .error .outOfFuel
  | fuel + 1 =>
    match mc.elem? vid with
    | none => .error .typeError
    | some e =>
      match e.data with
      | .state _ => State.EndEnter mc fuel vid dh d
      | .pseudoState _ _ => PseudoState.EndEnter mc fuel vid dh d
      | .finalState => .ok (d, [])
      | .region _ => .error .typeError
termination_by structural fuel

end

/-- The exit half of running a compiled path: one `OnExit` closure per entry
(`none` is the closure over `undefined`). -/
def execExits (mc : Machine) (fuel : Nat) : List (Option Nat) → Dyn → Res :=
  runSeq (fun o dd =>
    match o with
    | some x => OnExit.dispatch mc fuel x dd
    | none => .error .typeError)

/-- The entry half of running a compiled path: one `BeginEnter` closure per
element. -/
def execEnters (mc : Machine) (fuel : Nat) : List Nat → Dyn → Res :=
  runSeq (fun x dd => BeginEnter.dispatch mc fuel x dd)

/-- The region loop of `State.prototype.OnExit` (state.js:262): `forEach` over
`this.Regions`, exiting each active one. -/
def stateExitRegions (mc : Machine) (fuel : Nat) : List Nat → Dyn → Res :=
  runSeq (fun r dd => if dd.isActive r then Region.OnExit mc fuel r dd else .ok (dd, []))

/-- The region loop of `State.prototype.EndEnter` (state.js:292): `forEach`
over `this.Regions`, initialising each. -/
def stateInitRegions (mc : Machine) (fuel : Nat) (dh : Bool) : List Nat → Dyn → Res :=
  runSeq (fun r dd => Region.Initialise mc fuel r dh dd)

/-- The collection fields of a `Region` during model construction: the
registered `Initial` and the `Vertices` list (state.js:64-67, 144-150). -/
structure RegionCons where
  initial : Option Nat
  vertices : List Nat
deriving DecidableEq, Repr

/-- The `PseudoState` constructor body for a `Region` parent
(state.js:126-151): with an initial kind and an already-registered `Initial`,
the duplicate-initial `Error` is thrown before any mutation of the region;
otherwise the new pseudo state is registered as `Initial` (initial kinds only)
and pushed onto `Vertices`.  The result pairs the region's collection state at
constructor return — or at the throw — with the error, if any. -/
def PseudoState.construct (kind : PKind) (r : RegionCons) (newId : Nat) :
    RegionCons × Option Err :=
  if kind.IsInitial then
    match r.initial with
    | some _ => (r, some .modelError)
    | none => ({ initial := some newId, vertices := r.vertices ++ [newId] }, none)
  else
    ({ r with vertices := r.vertices ++ [newId] }, none)

/-- Modelled from the spec: the per-instance record of §3 ("a mutable
`isTerminated` flag").  `src/src/state.js` contains no instance object,
`Terminate` pseudo state kind, or `evaluate` entry point; they are only
declared in `lib/state.com.d.ts`. -/
structure SpecInstance where
  isTerminated : Bool
deriving DecidableEq, Repr

/-- User-visible work the spec's evaluator may perform. -/
inductive SpecAct
  | guardEval
  | entryAction
  | exitAction
  | effectAction
deriving DecidableEq, Repr

/-- Modelled from the spec: traversing a Terminate pseudo state "sets
`instance.isTerminated=true` and halts further traversal with no further
actions" (§4.D.4). -/
def specTerminateTraverse (inst : SpecInstance) : SpecInstance × List SpecAct :=
  ({ inst with isTerminated := true }, [])

/-- Modelled from the spec: step 1 of `evaluate` (§4.E) — "If
`instance.isTerminated`, return false immediately"; only otherwise does the
rest of the evaluator (an arbitrary continuation `k`, standing for steps 2-6)
run and produce actions. -/
def specEvaluate (k : SpecInstance → Bool × SpecInstance × List SpecAct)
    (inst : SpecInstance) : Bool × SpecInstance × List SpecAct :=
  if inst.isTerminated then (false, inst, []) else k inst

/-- A sequence of `evaluate` calls on one instance, one per message,
collecting the consumed flags and all actions run. -/
def specEvaluateSeq (k : Msg → SpecInstance → Bool × SpecInstance × List SpecAct) :
    List Msg → SpecInstance → List Bool × SpecInstance × List SpecAct
  | [], inst => ([], inst, [])
  | m :: ms, inst =>
    let (b, i1, a1) := specEvaluate (k m) inst
    let (bs, i2, a2) := specEvaluateSeq k ms i1
    (b :: bs, i2, a1 ++ a2)

/-! Concrete machines used by the counterexample, code-bug and witness
theorems.  Element ids index the `elems` list; each machine is the arena a run
of the constructors would build. -/

/-- C1's failing input: root state 0 over region 1 with initial pseudo 2; the
simple state 3 carries one completion (guard `true`, one effect) to state 4. -/
def machC1 : Machine := ⟨[
  ⟨none, .state ⟨0, 0, [1], [], []⟩⟩,
  ⟨some 0, .region ⟨some 2⟩⟩,
  ⟨some 1, .pseudoState .initial [⟨2, 3, true, 0⟩]⟩,
  ⟨some 1, .state ⟨0, 0, [], [⟨3, 4, true, 1⟩], []⟩⟩,
  ⟨some 1, .state ⟨0, 0, [], [], []⟩⟩]⟩

/-- C2's failing input: composite root 0 over region 1; child state 3 has a
transition (guard `message == 7`, one effect) to sibling state 4. -/
def machC2 : Machine := ⟨[
  ⟨none, .state ⟨0, 0, [1], [], []⟩⟩,
  ⟨some 0, .region ⟨some 2⟩⟩,
  ⟨some 1, .pseudoState .initial []⟩,
  ⟨some 1, .state ⟨0, 0, [], [], [⟨3, 4, fun m => m == 7, 1⟩]⟩⟩,
  ⟨some 1, .state ⟨0, 0, [], [], []⟩⟩]⟩

/-- C3's input: orthogonal state 0 with regions 1 (declared first, current
state 2) and 3 (declared second, current state 4); every state has one exit
action. -/
def machC3 : Machine := ⟨[
  ⟨none, .state ⟨0, 1, [1, 3], [], []⟩⟩,
  ⟨some 0, .region ⟨none⟩⟩,
  ⟨some 1, .state ⟨0, 1, [], [], []⟩⟩,
  ⟨some 0, .region ⟨none⟩⟩,
  ⟨some 3, .state ⟨0, 1, [], [], []⟩⟩]⟩

/-- The active configuration for `machC3`: everything active, both regions'
currents set. -/
def dynC3 : Dyn := ⟨[0, 1, 2, 3, 4], [(1, 2), (3, 4)]⟩

/-- The trace `State.OnExit` actually produces on `machC3`/`dynC3`: region 1's
subtree first. -/
def traceC3decl : List Ev :=
  [.exitAct 2 0, .leave 2, .setActive 2 false, .leave 1, .setActive 1 false,
   .exitAct 4 0, .leave 4, .setActive 4 false, .leave 3, .setActive 3 false,
   .exitAct 0 0, .leave 0, .setActive 0 false]

/-- The trace the claim's reverse-declaration-order rule would produce:
region 3's subtree first. -/
def traceC3rev : List Ev :=
  [.exitAct 4 0, .leave 4, .setActive 4 false, .leave 3, .setActive 3 false,
   .exitAct 2 0, .leave 2, .setActive 2 false, .leave 1, .setActive 1 false,
   .exitAct 0 0, .leave 0, .setActive 0 false]

/-- C4's ill-formed input: state 0 with two always-true self transitions. -/
def machC4a : Machine :=
  ⟨[⟨none, .state ⟨0, 0, [], [],
      [⟨0, 0, fun _ => true, 0⟩, ⟨0, 0, fun _ => true, 0⟩]⟩⟩]⟩

/-- C4's single-guard input: states 0 and 1 in region 2 of root 3; state 0 has
one always-true transition to state 1. -/
def machC4b : Machine := ⟨[
  ⟨some 2, .state ⟨0, 0, [], [], [⟨0, 1, fun _ => true, 0⟩]⟩⟩,
  ⟨some 2, .state ⟨0, 0, [], [], []⟩⟩,
  ⟨some 3, .region ⟨none⟩⟩,
  ⟨none, .state ⟨0, 0, [2], [], []⟩⟩]⟩

/-- C5's witness machine: region 1 (inside root 0) whose initial pseudo 2 has
kind `ShallowHistory`; states 3 and 4 are its vertices. -/
def machC5 : Machine := ⟨[
  ⟨none, .state ⟨0, 0, [1], [], []⟩⟩,
  ⟨some 0, .region ⟨some 2⟩⟩,
  ⟨some 1, .pseudoState .shallowHistory []⟩,
  ⟨some 1, .state ⟨0, 0, [], [], []⟩⟩,
  ⟨some 1, .state ⟨0, 0, [], [], []⟩⟩]⟩

/-- C6's witness machine: initial pseudo 4 sits in region 3 of state 2; its
completion would leave to state 5, a sibling of 2 in region 1 — so the LCA
child on the source side is state 2, not the pseudo. -/
def machC6 : Machine := ⟨[
  ⟨none, .state ⟨0, 0, [1], [], []⟩⟩,
  ⟨some 0, .region ⟨none⟩⟩,
  ⟨some 1, .state ⟨0, 0, [3], [], []⟩⟩,
  ⟨some 2, .region ⟨some 4⟩⟩,
  ⟨some 3, .pseudoState .initial []⟩,
  ⟨some 1, .state ⟨0, 0, [], [], []⟩⟩]⟩

/-- C7's witness machine: states 1 and 2 in region 0 of root 3; the traverse
runs a transition from 1 to 2 with two effect actions; both states carry one
entry and one exit action. -/
def machC7 : Machine := ⟨[
  ⟨some 3, .region ⟨none⟩⟩,
  ⟨some 0, .state ⟨1, 1, [], [], []⟩⟩,
  ⟨some 0, .state ⟨1, 1, [], [], []⟩⟩,
  ⟨none, .state ⟨0, 0, [0], [], []⟩⟩]⟩

/-- The transition traversed in C7's witness. -/
def transC7 : Transition := ⟨1, 2, fun _ => true, 2⟩

/-- C10's witness machine: state 1, with one entry and one exit action, lives
in region 0 of root 2 and is re-entered while already active. -/
def machC10 : Machine := ⟨[
  ⟨some 2, .region ⟨none⟩⟩,
  ⟨some 0, .state ⟨1, 1, [], [], []⟩⟩,
  ⟨none, .state ⟨0, 0, [0], [], []⟩⟩]⟩

/-! General lemmas shared by the claim theorems. -/

theorem exceptBind_ok {α β : Type} (a : α) (f : α → Except Err β) :
    (Except.ok a : Except Err α) >>= f = f a := rfl

theorem exceptBind_error {α β : Type} (e : Err) (f : α → Except Err β) :
    (Except.error e : Except Err α) >>= f = .error e := rfl

theorem runSeq_cons {α : Type} (f : α → Dyn → Res) (x : α) (xs : List α) (d : Dyn) :
    runSeq f (x :: xs) d = (do
      let (d1, t1) ← f x d
      let (d2, t2) ← runSeq f xs d1
      .ok (d2, t1 ++ t2)) := rfl

theorem singleOrDefault_two {α : Type} (xs : List α) (q : α → Bool)
    (h : 2 ≤ (xs.filter q).length) :
    singleOrDefault xs (some q) = .error .multipleError := by
  unfold singleOrDefault
  rcases hf : xs.filter q with _ | ⟨x, _ | ⟨y, rest⟩⟩
  · rw [hf] at h; simp at h
  · rw [hf] at h; simp at h
  · simp [hf]

theorem singleOrDefault_one {α : Type} (xs : List α) (q : α → Bool) (x : α)
    (h : xs.filter q = [x]) : singleOrDefault xs (some q) = .ok (some x) := by
  unfold singleOrDefault
  simp [h]

/-! The claim theorems. -/

/-- C1 (code bug): `machC1`'s simple state 3 has exactly one completion
transition, with a true guard and one effect action; the claim says that when
`EndEnter` finds the state complete that completion fires (exits, effects,
entries exactly once).  Instead `State.prototype.EndEnter` executes
`completion( deepHistory )` (state.js:302), calling the selected `Completion`
object as a function — a `TypeError` — so the completion transition never
fires and none of its actions run (`Completion.prototype.Traverse` is never
invoked from `State.EndEnter`). -/
theorem c1_completion_call_is_type_error :
    State.EndEnter machC1 5 3 false ⟨[3], [(1, 3)]⟩ = .error .typeError := rfl

/-- C2 (code bug): dispatching message 7 to `machC2`'s active composite root 0
descends into child region 1, whose current state 3 consumes it — the trace
shows the full traversal into state 4 — yet the returned flag is `false`.
`Region.prototype.Process` (state.js:91-94) has no `return` statement, so the
`=== true` test of `State.prototype.Process` (state.js:248) compares
`undefined` and never marks the message processed, contradicting the claimed
"consumed iff some active descendant consumed it". -/
theorem c2_consumed_but_reported_false :
    State.Process machC2 9 0 7 ⟨[0, 1, 3], [(1, 3)]⟩ =
      .ok (⟨[0, 1, 4], [(1, 4)]⟩,
        [.leave 3, .setActive 3 false, .effect 3 4 0 (some 7),
         .enter 4, .setActive 4 true, .setCurrent 1 4], false) := rfl

/-- C3 (counterexample): exiting `machC3`'s orthogonal state 0 (two active
regions, declared [1, 3]) produces `traceC3decl`, in which region 1's subtree
leaves first — declaration order.  The claim requires the reverse declaration
order, i.e. `traceC3rev` with region 3's subtree first; the two traces differ,
so the claim is false at this input (`State.prototype.OnExit` iterates
`this.Regions` with a plain `forEach`, state.js:262). -/
theorem c3_regions_exit_in_declaration_order :
    State.OnExit machC3 9 0 dynC3 = .ok (⟨[], [(1, 2), (3, 4)]⟩, traceC3decl) ∧
    traceC3decl ≠ traceC3rev :=
  ⟨rfl, by decide⟩

/-- C3 (amended): exiting a state exits its active child regions in
declaration order — the region loop handles the first-declared region first —
then runs the state's exit actions in order, then marks the state inactive;
entering (`State.EndEnter`'s region loop) visits the regions in declaration
order as well. -/
theorem c3_exit_decl_order_enter_decl_order (mc : Machine) (fuel sid : Nat)
    (st : StateData) (d : Dyn) (hst : mc.stateData? sid = some st) :
    (∀ d1 t1, stateExitRegions mc fuel st.regions d = .ok (d1, t1) →
      State.OnExit mc (fuel + 1) sid d =
        .ok (d1.setActive sid false,
          t1 ++ exitEvents sid st.exitCount ++ [.leave sid, .setActive sid false])) ∧
    (∀ r rs d0 dr tr dz tz,
      (if d0.isActive r then Region.OnExit mc fuel r d0 else .ok (d0, [])) = .ok (dr, tr) →
      stateExitRegions mc fuel rs dr = .ok (dz, tz) →
      stateExitRegions mc fuel (r :: rs) d0 = .ok (dz, tr ++ tz)) ∧
    (∀ dh r rs d0 dr tr dz tz,
      Region.Initialise mc fuel r dh d0 = .ok (dr, tr) →
      stateInitRegions mc fuel dh rs dr = .ok (dz, tz) →
      stateInitRegions mc fuel dh (r :: rs) d0 = .ok (dz, tr ++ tz)) := by
  refine ⟨?_, ?_, ?_⟩
  · intro d1 t1 h
    simp only [stateExitRegions] at h
    simp [State.OnExit, hst, h, exceptBind_ok]
  · intro r rs d0 dr tr dz tz h1 h2
    simp only [stateExitRegions] at h1 h2 ⊢
    rw [runSeq_cons, h1, exceptBind_ok]
    simp [h2, exceptBind_ok]
  · intro dh r rs d0 dr tr dz tz h1 h2
    simp only [stateInitRegions] at h1 h2 ⊢
    rw [runSeq_cons, h1, exceptBind_ok]
    simp [h2, exceptBind_ok]

/-- Witness for the amended C3: concrete instantiation on `machC3`. -/
theorem c3_exit_decl_order_witness :
    State.OnExit machC3 9 0 dynC3 =
      .ok ((⟨[0], [(1, 2), (3, 4)]⟩ : Dyn).setActive 0 false,
        [Ev.exitAct 2 0, Ev.leave 2, Ev.setActive 2 false, Ev.leave 1,
         Ev.setActive 1 false, Ev.exitAct 4 0, Ev.leave 4, Ev.setActive 4 false,
         Ev.leave 3, Ev.setActive 3 false]
          ++ exitEvents 0 1 ++ [Ev.leave 0, Ev.setActive 0 false]) :=
  (c3_exit_decl_order_enter_decl_order machC3 8 0 ⟨0, 1, [1, 3], [], []⟩ dynC3 rfl).1
    ⟨[0], [(1, 2), (3, 4)]⟩ _ rfl

/-- C9 (spec-modelled): after a Terminate pseudo state is traversed the
instance's `isTerminated` flag is true and the traversal itself runs no
action; thereafter every `evaluate`, whatever the rest of the evaluator `k`
would do, returns false, leaves the instance unchanged and runs no guard,
entry, exit or effect action. -/
theorem c9_terminate_absorbs (inst : SpecInstance)
    (k : Msg → SpecInstance → Bool × SpecInstance × List SpecAct) (ms : List Msg) :
    (specTerminateTraverse inst).1.isTerminated = true ∧
    (specTerminateTraverse inst).2 = [] ∧
    specEvaluateSeq k ms (specTerminateTraverse inst).1 =
      (ms.map (fun _ => false), (specTerminateTraverse inst).1, []) := by
  refine ⟨rfl, rfl, ?_⟩
  induction ms with
  | nil => rfl
  | cons m ms ih =>
    simp only [specEvaluateSeq, specEvaluate, specTerminateTraverse] at ih ⊢
    simp [ih]

/-- C4: when two or more of a state's outgoing transitions have true guards
for the dispatched message, `State.Process` raises the ill-formed-machine
error of `singleOrDefault` ("Cannot return more than one elements",
state.js:43); when exactly one guard is true, that transition's traverse plan
runs and the message is reported processed. -/
theorem c4_at_most_one_enabled (mc : Machine) (fuel sid : Nat) (msg : Msg) (d : Dyn)
    (st : StateData) (hst : mc.stateData? sid = some st) :
    (2 ≤ (st.transitions.filter (fun t => t.guard msg)).length →
      State.Process mc (fuel + 1) sid msg d = .error .multipleError) ∧
    (∀ t, st.transitions.filter (fun t => t.guard msg) = [t] →
      State.Process mc (fuel + 1) sid msg d =
        (Transition.Traverse mc fuel t msg d).map (fun r => (r.1, r.2, true))) := by
  constructor
  · intro h
    simp [State.Process, hst, singleOrDefault_two _ _ h, exceptBind_error]
  · intro t h
    simp [State.Process, hst, singleOrDefault_one _ _ _ h, exceptBind_ok]
    rcases h' : Transition.Traverse mc fuel t msg d with e | ⟨d1, t1⟩ <;>
      simp [h', exceptBind_ok, exceptBind_error, Except.map]

/-- Witness for C4: `machC4a` has two always-true guards (error), `machC4b`
exactly one (traversal). -/
theorem c4_witness :
    State.Process machC4a 5 0 0 ⟨[], []⟩ = .error .multipleError ∧
    State.Process machC4b 5 0 0 ⟨[0], []⟩ =
      (Transition.Traverse machC4b 4 ⟨0, 1, fun _ => true, 0⟩ 0 ⟨[0], []⟩).map
        (fun r => (r.1, r.2, true)) :=
  ⟨(c4_at_most_one_enabled machC4a 4 0 0 ⟨[], []⟩ _ rfl).1 (by decide),
   (c4_at_most_one_enabled machC4b 4 0 0 ⟨[0], []⟩ _ rfl).2 _ rfl⟩

/-- C5: the vertex chosen by `Region.Initialise` (state.js:86) is the region's
last-known current state when that is set and the `deepHistory` flag is true
or the region's initial pseudo state is of a history kind; otherwise it is the
initial pseudo state; and the region entry cascade is `BeginEnter` followed by
`Initialise` of exactly the chosen vertex. -/
theorem c5_history_selection (mc : Machine) (rid iid : Nat) (dh : Bool) (d : Dyn)
    (k : PKind)
    (hr : mc.regionData? rid = some ⟨some iid⟩)
    (hk : mc.pseudoKind? iid = some k) :
    (∀ c, d.getCurrent rid = some c → (dh = true ∨ k.IsHistory = true) →
      regionInitialVertex mc rid dh d = .ok c) ∧
    ((d.getCurrent rid = none ∨ (dh = false ∧ k.IsHistory = false)) →
      regionInitialVertex mc rid dh d = .ok iid) ∧
    (∀ fuel d0 d1 t1 v, Region.BeginEnter mc fuel rid d0 = .ok (d1, t1) →
      regionInitialVertex mc rid dh d1 = .ok v →
      Region.Initialise mc (fuel + 1) rid dh d0 =
        (Initialise.dispatch mc fuel v dh d1).map (fun r => (r.1, t1 ++ r.2))) := by
  refine ⟨?_, ?_, ?_⟩
  · intro c hc hcond
    rcases hcond with hdh | hh
    · subst hdh
      simp [regionInitialVertex, hr, hk, hc, exceptBind_ok, pure, Except.pure]
    · cases dh <;> simp [regionInitialVertex, hr, hk, hc, hh, exceptBind_ok, pure, Except.pure]
  · intro hcond
    rcases hcond with hc | ⟨hdh, hh⟩
    · cases dh <;> cases hkh : k.IsHistory <;>
        simp [regionInitialVertex, hr, hk, hc, hkh, exceptBind_ok, pure, Except.pure]
    · subst hdh
      simp [regionInitialVertex, hr, hk, hh, exceptBind_ok, pure, Except.pure]
  · intro fuel d0 d1 t1 v hbe hv
    simp [Region.Initialise, hbe, hv, exceptBind_ok]
    rcases h' : Initialise.dispatch mc fuel v dh d1 with e | ⟨d2, t2⟩ <;>
      simp [h', exceptBind_ok, exceptBind_error, Except.map]

/-- Witness for C5: `machC5`'s region 1 has a `ShallowHistory` initial pseudo
state 2; with current state 3 set the cascade picks 3, without it picks 2. -/
theorem c5_witness :
    regionInitialVertex machC5 1 false ⟨[], [(1, 3)]⟩ = .ok 3 ∧
    regionInitialVertex machC5 1 false ⟨[], []⟩ = .ok 2 ∧
    Region.Initialise machC5 4 1 false ⟨[], [(1, 3)]⟩ =
      (Initialise.dispatch machC5 3 3 false ⟨[1], [(1, 3)]⟩).map
        (fun r => (r.1, [Ev.enter 1, Ev.setActive 1 true] ++ r.2)) := by
  have h := c5_history_selection machC5 1 2 false ⟨[], [(1, 3)]⟩ .shallowHistory rfl rfl
  have h2 := c5_history_selection machC5 1 2 false ⟨[], []⟩ .shallowHistory rfl rfl
  exact ⟨h.1 3 rfl (Or.inr rfl), h2.2.1 (Or.inl rfl),
         h.2.2 3 ⟨[], [(1, 3)]⟩ ⟨[1], [(1, 3)]⟩ [Ev.enter 1, Ev.setActive 1 true] 3 rfl rfl⟩

/-- C6: in `Path` (state.js:441-444), when the transition source is a
`PseudoState` and the source-side ancestry element at the first-difference
index is not the source itself, the exit plan is the source's own exit
prepended before the exit of that child-of-LCA element; when that element is
the source, no extra exit is added. -/
theorem c6_pseudo_source_exit_prepended (mc : Machine) (fuel s t i : Nat)
    (sA tA : List Nat)
    (hs : Ancestors mc fuel s = some sA) (ht : Ancestors mc fuel t = some tA)
    (hi : firstDiffIdx sA tA = some i) (hp : mc.isPseudo s = true) :
    (sA[i]? ≠ some s →
      mkPath mc fuel s t = .ok ⟨[some s, sA[i]?], tA.drop i, t⟩) ∧
    (sA[i]? = some s →
      mkPath mc fuel s t = .ok ⟨[sA[i]?], tA.drop i, t⟩) := by
  unfold mkPath
  rw [hs, ht]
  constructor <;> intro h <;> simp [hi, hp, h]

/-- Witness for C6: `machC6`'s initial pseudo 4 leaves to state 5 outside its
enclosing state 2, so the exit plan is [exit 4, exit 2]. -/
theorem c6_witness :
    mkPath machC6 9 4 5 = .ok ⟨[some 4, some 2], [5], 5⟩ :=
  (c6_pseudo_source_exit_prepended machC6 9 4 5 2 [0, 1, 2, 3, 4] [0, 1, 5]
    rfl rfl rfl rfl).1 (by decide)

/-- C7: a single transition traversal (state.js:403-415) executes, in order:
the source-side exit closures of the compiled path, then every transition
effect action in declaration order with the dispatched message, then the
target-side entry closures, then the target's `EndEnter` — the recursive
child-region initialisation and completion-evaluation phase. -/
theorem c7_traversal_order (mc : Machine) (fuel : Nat) (t : Transition) (msg : Msg)
    (d d1 d2 d3 : Dyn) (p : PathS) (e1 e3 e4 : List Ev)
    (hp : mkPath mc fuel t.source t.target = .ok p)
    (h1 : execExits mc fuel p.exits d = .ok (d1, e1))
    (h3 : execEnters mc fuel p.enters d1 = .ok (d2, e3))
    (h4 : EndEnter.dispatch mc fuel p.target false d2 = .ok (d3, e4)) :
    Transition.Traverse mc (fuel + 1) t msg d =
      .ok (d3, e1 ++ effectEvents t.source t.target t.effectCount (some msg)
                ++ e3 ++ e4) := by
  simp only [execExits] at h1
  simp only [execEnters] at h3
  simp [Transition.Traverse, hp, h1, h3, h4, exceptBind_ok]

/-- Witness for C7: traversing `transC7` (two effects) from state 1 to state 2
of `machC7`. -/
theorem c7_witness :
    Transition.Traverse machC7 6 transC7 7 ⟨[0, 1], [(0, 1)]⟩ =
      .ok (⟨[0, 2], [(0, 2)]⟩,
        [Ev.exitAct 1 0, Ev.leave 1, Ev.setActive 1 false]
          ++ effectEvents 1 2 2 (some 7)
          ++ [Ev.enter 2, Ev.setActive 2 true, Ev.setCurrent 0 2, Ev.entryAct 2 0]
          ++ []) :=
  c7_traversal_order machC7 5 transC7 7 ⟨[0, 1], [(0, 1)]⟩ ⟨[0], [(0, 1)]⟩
    ⟨[0, 2], [(0, 2)]⟩ ⟨[0, 2], [(0, 2)]⟩ ⟨[some 1], [2], 2⟩
    [Ev.exitAct 1 0, Ev.leave 1, Ev.setActive 1 false]
    [Ev.enter 2, Ev.setActive 2 true, Ev.setCurrent 0 2, Ev.entryAct 2 0] []
    rfl rfl rfl rfl

/-- C10: `State.BeginEnter` (state.js:271-288) on an already-active state
first runs the full exit cascade (`State.OnExit`: child regions, exit
actions, inactive mark) and only then re-activates the state; and in both
cases the state is recorded as its parent region's current (`setCurrent`)
before any of its entry actions run — the `setCurrent` event precedes every
`entryAct` event in the trace. -/
theorem c10_reenter_exit_first_current_before_entry (mc : Machine)
    (fuel sid p : Nat) (st : StateData) (d : Dyn)
    (hst : mc.stateData? sid = some st) (hp : mc.parent? sid = some p) :
    (∀ d1 t1, d.isActive sid = true → State.OnExit mc fuel sid d = .ok (d1, t1) →
      State.BeginEnter mc (fuel + 1) sid d =
        .ok ((d1.setActive sid true).setCurrent p sid,
          t1 ++ [.enter sid, .setActive sid true] ++ [.setCurrent p sid]
             ++ entryEvents sid st.entryCount)) ∧
    (d.isActive sid = false →
      State.BeginEnter mc (fuel + 1) sid d =
        .ok ((d.setActive sid true).setCurrent p sid,
          [.enter sid, .setActive sid true] ++ [.setCurrent p sid]
             ++ entryEvents sid st.entryCount)) := by
  constructor
  · intro d1 t1 hact hoe
    simp [State.BeginEnter, hst, hp, hact, hoe, exceptBind_ok]
  · intro hact
    simp [State.BeginEnter, hst, hp, hact, exceptBind_ok]

/-- Witness for C10: re-entering `machC10`'s active state 1. -/
theorem c10_witness :
    State.BeginEnter machC10 4 1 ⟨[0, 1], [(0, 1)]⟩ =
      .ok ((((⟨[0], [(0, 1)]⟩ : Dyn)).setActive 1 true).setCurrent 0 1,
        [Ev.exitAct 1 0, Ev.leave 1, Ev.setActive 1 false]
          ++ [Ev.enter 1, Ev.setActive 1 true] ++ [Ev.setCurrent 0 1]
          ++ entryEvents 1 1) :=
  (c10_reenter_exit_first_current_before_entry machC10 3 1 0 ⟨1, 1, [], [], []⟩
      ⟨[0, 1], [(0, 1)]⟩ rfl rfl).1
    ⟨[0], [(0, 1)]⟩ [Ev.exitAct 1 0, Ev.leave 1, Ev.setActive 1 false] rfl rfl

/-- C8: the `PseudoState` constructor (state.js:126-151) registers the first
initial-kind pseudo state (`Initial`, `ShallowHistory` or `DeepHistory`) as
the region's initial and appends it to the vertices; constructing a second one
while an initial is registered throws the duplicate-initial model error before
any mutation, leaving the region's collections unchanged. -/
theorem c8_single_initial_per_region (kind kind2 : PKind) (r : RegionCons)
    (a b : Nat)
    (hk : kind = .initial ∨ kind = .shallowHistory ∨ kind = .deepHistory)
    (hk2 : kind2 = .initial ∨ kind2 = .shallowHistory ∨ kind2 = .deepHistory)
    (hr : r.initial = none) :
    PseudoState.construct kind r a =
      ({ initial := some a, vertices := r.vertices ++ [a] }, none) ∧
    (∀ x vs, PseudoState.construct kind2 ⟨some x, vs⟩ b = (⟨some x, vs⟩, some .modelError)) := by
  have hI : kind.IsInitial = true := by
    rcases hk with h | h | h <;> subst h <;> rfl
  have hI2 : kind2.IsInitial = true := by
    rcases hk2 with h | h | h <;> subst h <;> rfl
  constructor
  · simp [PseudoState.construct, hI, hr]
  · intro x vs
    simp [PseudoState.construct, hI2]

/-- Witness for C8: an `Initial` at id 7 registers in an empty region; a
`ShallowHistory` at id 8 then throws and changes nothing. -/
theorem c8_witness :
    PseudoState.construct .initial ⟨none, []⟩ 7 = (⟨some 7, [7]⟩, none) ∧
    PseudoState.construct .shallowHistory ⟨some 7, [7]⟩ 8 =
      (⟨some 7, [7]⟩, some .modelError) := by
  have h := c8_single_initial_per_region .initial .shallowHistory ⟨none, []⟩ 7 8
    (Or.inl rfl) (Or.inr (Or.inl rfl)) rfl
  exact ⟨h.1, h.2 7 [7]⟩

end StateJs
